import Mathlib

/-!
Shallow embedding of the tenders_download harvesting pipeline.

The model covers:
* `src/document_service.py` — `DocumentDownloadService.download_for_tender`,
  `download_for_batch`, `_write_no_attachments_marker`;
* `src/document_downloader.py` — `DocumentDownloader.download_document`,
  `download_documents_for_tender`;
* `src/scripts/download_tenders.py` — the pagination loop of
  `fetch_tenders_for_province`;
* `src/src/api/client.py` — `APIClient._rate_limit`.

Conventions: the local file system is an explicit `Fs` value; the remote
service is abstracted by oracles (`fetch` for document metadata, `netOk` for
byte downloads); network activity is counted so that "no network call" is a
statement about the model.  Python truthiness on optional strings (`None` and
`""` are falsy) is modelled by `strTruthy`.
-/

namespace TendersDownload

/-- Python truthiness of an optional string: `None` and `""` are falsy. -/
def strTruthy : Option String → Bool
  | none => false
  | some s => s != ""

/-- Python `a or b` over optional strings: `b` when `a` is falsy. -/
def pyOr (a b : Option String) : Option String :=
  if strTruthy a then a else b

/-- A document-metadata entry (`document` dict).  Only the fields the core
reads are modelled.  The `download_endpoint_template` of the downloader only
rewrites the URL handed to the network, which the model abstracts by an
oracle keyed on the tender id and the document, so the identifier fields it
substitutes are not needed here. -/
structure Doc where
  fileName : Option String := none
  name : Option String := none
  url : Option String := none
  downloadUrl : Option String := none
  fileUrl : Option String := none
deriving Repr, DecidableEq

/-- `document.get('fileName') or document.get('name')` in
`DocumentDownloader.download_document`. -/
def resolvedFileName (d : Doc) : Option String :=
  pyOr d.fileName d.name

/-- `document.get('url') or document.get('downloadUrl') or
document.get('fileUrl')` in `DocumentDownloader.download_document`. -/
def resolvedUrl (d : Doc) : Option String :=
  pyOr d.url (pyOr d.downloadUrl d.fileUrl)

/-- Split a character list at each `'/'` (POSIX separator), the way
`pathlib` tokenizes a path string. -/
def splitSlash : List Char → List (List Char)
  | [] => [[]]
  | c :: rest =>
    match splitSlash rest with
    | [] => if c = '/' then [[], []] else [[c]]
    | p :: ps => if c = '/' then [] :: p :: ps else (c :: p) :: ps

/-- The components `PurePosixPath(s).parts` keeps (drive/root aside):
split on `'/'` and drop empty and `"."` segments, which `pathlib`
discards when parsing. -/
def pathParts (s : String) : List String :=
  ((splitSlash s.toList).map (fun cs => String.mk cs)).filter
    (fun p => p != "" && p != ".")

/-- `PurePosixPath(s).name`: the final path component, `""` when there is
none.  This is the sanitization step
`file_name = Path(file_name).name` of `download_document`. -/
def pathName (s : String) : String :=
  ((pathParts s).getLast?).getD ""

/-- Does a string contain the path separator? -/
def hasSlash (s : String) : Bool :=
  s.toList.contains '/'

/-- Local file-system state, restricted to what the core reads and writes:
per-tender `documents.json` contents, the per-tender `no_attachments`
marker, and the set of attachment files present, recorded as
(tender id, file component) pairs inside that tender's attachment
directory. -/
structure Fs where
  docsJson : List (String × List Doc) := []
  markers : List String := []
  files : List (String × String) := []
deriving Repr, DecidableEq

/-- Configuration of `DocumentDownloader` that affects paths: the optional
attachments subdirectory name. -/
structure DownloaderCfg where
  attachmentsSubdir : Option String := none
deriving Repr, DecidableEq

/-- Components of the directory attachment files are written into:
`tender_folder / attachments_subdir` when a subdirectory is configured,
else the tender folder itself.  The storage root is environment
configuration and is represented by the leading `"tenders"` component. -/
def attachPath (cfg : DownloaderCfg) (tenderId : String) : List String :=
  ["tenders", tenderId] ++
    (match cfg.attachmentsSubdir with
     | some d => [d]
     | none => [])

/-- Does `target_folder / c` exist on disk?  The attachment directory and
its parent always exist (`mkdir(parents=True, exist_ok=True)` just ran),
and `pathlib` resolves the component `""` to the directory itself and
`".."` to its parent; any other component exists exactly when it was
recorded as a downloaded file. -/
def fileExistsAt (fs : Fs) (tenderId c : String) : Bool :=
  if c = "" || c = ".." then true else fs.files.contains (tenderId, c)

/-- Writing downloaded bytes at `target_folder / c`: when `c` denotes an
existing directory (`""` is the attachment directory itself, `".."` its
parent) the `open(..., 'wb')` raises and nothing is written; otherwise the
file is recorded (an overwrite leaves the set of files unchanged). -/
def writeAttachment (fs : Fs) (tenderId c : String) : Option Fs :=
  if c = "" || c = ".." then none
  else some { fs with
    files := if fs.files.contains (tenderId, c) then fs.files
             else (tenderId, c) :: fs.files }

/-- `DocumentDownloader.download_document`: returns the optional path the
Python function returns (as a component list), the file system afterwards,
and the number of network byte-download calls performed (0 or 1).
`netOk tenderId doc` tells whether fetching this document's bytes
succeeds. -/
def download_document (netOk : String → Doc → Bool) (cfg : DownloaderCfg)
    (tenderId : String) (doc : Doc) (overwrite : Bool) (fs : Fs) :
    Option (List String) × Fs × Nat :=
  if strTruthy (resolvedFileName doc) = false then (none, fs, 0)
  else
    let fileName := pathName ((resolvedFileName doc).getD "")
    if strTruthy (resolvedUrl doc) = false then (none, fs, 0)
    else
      let filePath :=
        attachPath cfg tenderId ++ (if fileName = "" then [] else [fileName])
      if fileExistsAt fs tenderId fileName && !overwrite then
        (some filePath, fs, 0)
      else if netOk tenderId doc then
        match writeAttachment fs tenderId fileName with
        | some fs1 => (some filePath, fs1, 1)
        | none => (none, fs, 1)
      else (none, fs, 1)

/-- Body of the loop of `download_documents_for_tender`: run
`download_document`, append the returned path when there is one, thread
the file system and the network-call count. -/
def docStep (netOk : String → Doc → Bool) (cfg : DownloaderCfg)
    (tenderId : String) (overwrite : Bool)
    (acc : List (List String) × Fs × Nat) (doc : Doc) :
    List (List String) × Fs × Nat :=
  let r := download_document netOk cfg tenderId doc overwrite acc.2.1
  (acc.1 ++ (match r.1 with
             | some p => [p]
             | none => []),
   r.2.1, acc.2.2 + r.2.2)

/-- `DocumentDownloader.download_documents_for_tender`: fold over the
document list, collecting the successfully returned paths and threading
the file system and the network-call count. -/
def download_documents_for_tender (netOk : String → Doc → Bool)
    (cfg : DownloaderCfg) (tenderId : String) (documents : List Doc)
    (overwrite : Bool) (fs : Fs) : List (List String) × Fs × Nat :=
  documents.foldl (docStep netOk cfg tenderId overwrite) ([], fs, 0)

/-- The per-tender summary dict built by
`DocumentDownloadService.download_for_tender`. -/
structure Summary where
  tender_id : String
  documents_found : Nat := 0
  documents_downloaded : Nat := 0
  status : String := "pending"
  error : Option String := none
deriving Repr, DecidableEq

/-- Result of one `download_for_tender` call: the summary, the file system
afterwards, and the counts of metadata network fetches and byte-download
network calls performed during the call. -/
structure TenderRun where
  summary : Summary
  fs : Fs
  metaFetches : Nat
  fileDownloads : Nat
deriving Repr, DecidableEq

/-- `DocumentDownloadService._write_no_attachments_marker`:
`marker_path.touch(exist_ok=True)` — create the marker if absent, a no-op
otherwise. -/
def writeNoAttachmentsMarker (fs : Fs) (tenderId : String) : Fs :=
  if fs.markers.contains tenderId then fs
  else { fs with markers := tenderId :: fs.markers }

/-- `FileManager.save_documents_json`: write `documents.json` for the
tender, replacing any previous contents. -/
def saveDocumentsJson (fs : Fs) (tenderId : String) (documents : List Doc) :
    Fs :=
  { fs with
    docsJson := (tenderId, documents) :: fs.docsJson.filter
      (fun p => p.1 != tenderId) }

/-- Tail of `download_for_tender` once the document list is known
(`mf` = metadata network fetches already performed): empty list yields the
`no_attachments` marker and status `no_documents`; otherwise the metadata
is persisted (when `save_metadata`), the documents are downloaded, and the
status is `completed` with the found/downloaded counts. -/
def processDocuments (netOk : String → Doc → Bool) (cfg : DownloaderCfg)
    (tenderId : String) (overwrite save_metadata : Bool) (fs : Fs)
    (documents : List Doc) (mf : Nat) : TenderRun :=
  if documents.isEmpty then
    { summary := { tender_id := tenderId, status := "no_documents" },
      fs := writeNoAttachmentsMarker fs tenderId,
      metaFetches := mf, fileDownloads := 0 }
  else
    let fs1 := if save_metadata then saveDocumentsJson fs tenderId documents
               else fs
    let r := download_documents_for_tender netOk cfg tenderId documents
      overwrite fs1
    { summary := { tender_id := tenderId,
                   documents_found := documents.length,
                   documents_downloaded := r.1.length,
                   status := "completed" },
      fs := r.2.1, metaFetches := mf, fileDownloads := r.2.2 }

/-- `DocumentDownloadService.download_for_tender`.  `fetch` is the injected
`document_fetcher.fetch_documents`; a raised exception is an `Except.error`
and is caught by the surrounding `try`, producing status `error` with the
message.  When `use_cached_metadata` is set and `documents.json` exists it
is loaded instead of calling the network (a missing file raises
`FileNotFoundError`, caught, leaving `documents = None`). -/
def download_for_tender (fetch : String → Except String (List Doc))
    (netOk : String → Doc → Bool) (cfg : DownloaderCfg) (tenderId : String)
    (overwrite save_metadata use_cached_metadata : Bool) (fs : Fs) :
    TenderRun :=
  let cached := if use_cached_metadata then fs.docsJson.lookup tenderId
                else none
  match cached with
  | some documents =>
      processDocuments netOk cfg tenderId overwrite save_metadata fs
        documents 0
  | none =>
    match fetch tenderId with
    | .error e =>
        { summary := { tender_id := tenderId, status := "error",
                       error := some e },
          fs := fs, metaFetches := 1, fileDownloads := 0 }
    | .ok documents =>
        processDocuments netOk cfg tenderId overwrite save_metadata fs
          documents 1

/-- Result of a `download_for_batch` call. -/
structure BatchRun where
  results : List Summary
  fs : Fs
  metaFetches : Nat
  fileDownloads : Nat
deriving Repr, DecidableEq

/-- Body of the loop of `download_for_batch`: a falsy (empty) identifier is
skipped (`if not tender_id: continue`) and contributes no outcome;
otherwise `download_for_tender` runs with `save_metadata` left at its
default `True` and its summary is appended. -/
def batchStep (fetch : String → Except String (List Doc))
    (netOk : String → Doc → Bool) (cfg : DownloaderCfg)
    (overwrite use_cached_metadata : Bool) (acc : BatchRun) (tid : String) :
    BatchRun :=
  if tid == "" then acc
  else
    let r := download_for_tender fetch netOk cfg tid overwrite true
      use_cached_metadata acc.fs
    { results := acc.results ++ [r.summary], fs := r.fs,
      metaFetches := acc.metaFetches + r.metaFetches,
      fileDownloads := acc.fileDownloads + r.fileDownloads }

/-- `DocumentDownloadService.download_for_batch`: sequential fold of
`batchStep` over the supplied identifiers. -/
def download_for_batch (fetch : String → Except String (List Doc))
    (netOk : String → Doc → Bool) (cfg : DownloaderCfg)
    (tender_ids : List String) (overwrite use_cached_metadata : Bool)
    (fs : Fs) : BatchRun :=
  tender_ids.foldl (batchStep fetch netOk cfg overwrite use_cached_metadata)
    { results := [], fs := fs, metaFetches := 0, fileDownloads := 0 }

/-- The attachment-directory component `download_document` would write for
a document, when both required fields resolve (mirrors the two guards and
the sanitization of `download_document`). -/
def docTarget (doc : Doc) : Option String :=
  if strTruthy (resolvedFileName doc) = false then none
  else if strTruthy (resolvedUrl doc) = false then none
  else some (pathName ((resolvedFileName doc).getD ""))

/-- Pagination settings of `fetch_tenders_for_province`
(`src/scripts/download_tenders.py`): start page, optional end-page ceiling
and page size.  `endPage = none` models a `None` config value. -/
structure Pagination where
  startPage : Nat := 1
  endPage : Option Nat := none
  pageSize : Nat := 50
deriving Repr, DecidableEq

/-- Why the crawl loop stopped.  `httpError` is the two `except` clauses
(`requests.HTTPError` / `requests.RequestException`), which log the error
and `break`; `endPageReached` is the `logger.warning` truncation branch;
`fuelExhausted` is an artifact of modelling the unbounded `while True`
loop with fuel and corresponds to no code path. -/
inductive StopReason where
  | httpError
  | emptyPage
  | shortPage
  | endPageReached
  | fuelExhausted
deriving Repr, DecidableEq

/-- The guard `if pagination["end_page"] and page_number >= end_page`:
Python truthiness makes `None` and `0` skip the ceiling check. -/
def endPageHit (p : Pagination) (page : Nat) : Bool :=
  match p.endPage with
  | none => false
  | some e => decide (e ≠ 0) && decide (e ≤ page)

/-- Body of the `while True` loop of `fetch_tenders_for_province`:
`fetchPage n` is the result of `fetch_page` for page `n` (`Except.error`
when it raises).  Returns the accumulated records, the number of page
requests issued, and the stop reason.  `fuel` bounds the unbounded loop. -/
def fetchLoop {α : Type} (fetchPage : Nat → Except String (List α))
    (p : Pagination) :
    Nat → Nat → List α → Nat → List α × Nat × StopReason
  | 0, _, acc, reqs => (acc, reqs, .fuelExhausted)
  | fuel + 1, page, acc, reqs =>
    match fetchPage page with
    | .error _ => (acc, reqs + 1, .httpError)
    | .ok items =>
      if items.isEmpty then (acc, reqs + 1, .emptyPage)
      else
        let acc1 := acc ++ items
        if items.length < p.pageSize then (acc1, reqs + 1, .shortPage)
        else if endPageHit p page then (acc1, reqs + 1, .endPageReached)
        else fetchLoop fetchPage p fuel (page + 1) acc1 (reqs + 1)

/-- `fetch_tenders_for_province`: run the crawl loop from the configured
start page with an empty accumulator. -/
def fetch_tenders_for_province {α : Type}
    (fetchPage : Nat → Except String (List α)) (p : Pagination)
    (fuel : Nat) : List α × Nat × StopReason :=
  fetchLoop fetchPage p fuel p.startPage [] 0

/-- `APIClient.__init__`: `min_request_interval = 1.0 / rate_limit`. -/
def minRequestInterval (rate : ℚ) : ℚ := 1 / rate

/-- `APIClient._rate_limit` under an exact clock: called at wall-clock
`now` with stored `last_request_time = last`, it sleeps
`min_request_interval - (now - last)` when that is positive; the returned
value is the time at which the request actually departs, which the code
then stores as the new `last_request_time`. -/
def rateLimitStep (minInterval last now : ℚ) : ℚ :=
  if now - last < minInterval then now + (minInterval - (now - last))
  else now

/-- Departure times of consecutive requests through one client instance.
`last` is the stored `last_request_time` (`0.0` at client construction),
`prev` the current wall-clock time, and each element `g` of `gaps` is the
delay between the previous departure and the moment the synchronous caller
issues the next request. -/
def departureTimes (minInterval : ℚ) : ℚ → ℚ → List ℚ → List ℚ
  | _, _, [] => []
  | last, prev, g :: gs =>
    let d := rateLimitStep minInterval last (prev + g)
    d :: departureTimes minInterval d d gs

/-- Expected (status, error) pair of a tender outcome as a function of its
metadata-fetch result, used to state outcome characterizations: a raised
fetch is caught and reported as status `error` with the message, an empty
list yields `no_documents`, a nonempty list `completed`. -/
def expectedOutcome (r : Except String (List Doc)) : String × Option String :=
  match r with
  | .error e => ("error", some e)
  | .ok [] => ("no_documents", none)
  | .ok (_ :: _) => ("completed", none)

/-! Helper lemmas. -/

theorem splitSlash_no_slash :
    ∀ (l : List Char), ∀ p ∈ splitSlash l, '/' ∉ p := by
  intro l
  induction l with
  | nil =>
    intro p hp
    simp only [splitSlash, List.mem_singleton] at hp
    subst hp
    simp
  | cons c rest ih =>
    intro p hp
    rw [splitSlash] at hp
    cases hsp : splitSlash rest with
    | nil =>
      rw [hsp] at hp
      by_cases hc : c = '/'
      · rw [if_pos hc] at hp
        have hpe : p = [] := by
          rcases List.mem_cons.mp hp with h | h
          · exact h
          · exact List.mem_singleton.mp h
        subst hpe
        simp
      · rw [if_neg hc] at hp
        have hpe : p = [c] := List.mem_singleton.mp hp
        subst hpe
        intro hmem
        rcases List.mem_singleton.mp hmem with rfl
        exact hc rfl
    | cons q qs =>
      rw [hsp] at hp
      have hp2 : p ∈ (if c = '/' then [] :: q :: qs else (c :: q) :: qs) :=
        hp
      by_cases hc : c = '/'
      · rw [if_pos hc] at hp2
        rcases List.mem_cons.mp hp2 with hpe | hmem
        · subst hpe; simp
        · exact ih p (by rw [hsp]; exact hmem)
      · rw [if_neg hc] at hp2
        rcases List.mem_cons.mp hp2 with hpe | hmem
        · subst hpe
          intro hmem2
          rcases List.mem_cons.mp hmem2 with h1 | h1
          · exact hc h1.symm
          · exact ih q (by rw [hsp]; exact List.mem_cons_self q qs) h1
        · exact ih p (by rw [hsp]; exact List.mem_cons_of_mem q hmem)

theorem mem_pathParts_no_slash (s : String) (p : String)
    (hp : p ∈ pathParts s) : hasSlash p = false := by
  unfold pathParts at hp
  have hp1 := List.mem_of_mem_filter hp
  rcases List.mem_map.mp hp1 with ⟨cs, hcs, rfl⟩
  have hns := splitSlash_no_slash s.toList cs hcs
  unfold hasSlash
  have : (String.mk cs).toList = cs := rfl
  rw [this]
  simpa using hns

theorem pathName_no_slash (s : String) : hasSlash (pathName s) = false := by
  unfold pathName
  cases h : (pathParts s).getLast? with
  | none => rfl
  | some p =>
    have hmem : p ∈ pathParts s := by
      obtain ⟨hne, heq⟩ :=
        List.mem_getLast?_eq_getLast (l := pathParts s) (x := p) h
      rw [heq]
      exact List.getLast_mem hne
    simpa using mem_pathParts_no_slash s p hmem

theorem writeNoAttachmentsMarker_docsJson (fs : Fs) (tenderId : String) :
    (writeNoAttachmentsMarker fs tenderId).docsJson = fs.docsJson := by
  unfold writeNoAttachmentsMarker
  split <;> rfl

theorem writeNoAttachmentsMarker_files (fs : Fs) (tenderId : String) :
    (writeNoAttachmentsMarker fs tenderId).files = fs.files := by
  unfold writeNoAttachmentsMarker
  split <;> rfl

theorem writeNoAttachmentsMarker_contains (fs : Fs) (tenderId : String) :
    (writeNoAttachmentsMarker fs tenderId).markers.contains tenderId
      = true := by
  unfold writeNoAttachmentsMarker
  split
  · assumption
  · simp

theorem saveDocumentsJson_files (fs : Fs) (tenderId : String)
    (documents : List Doc) :
    (saveDocumentsJson fs tenderId documents).files = fs.files := rfl

theorem saveDocumentsJson_lookup (fs : Fs) (tenderId : String)
    (documents : List Doc) :
    (saveDocumentsJson fs tenderId documents).docsJson.lookup tenderId
      = some documents := by
  simp [saveDocumentsJson, List.lookup]

theorem fileExistsAt_congr (fs1 fs2 : Fs) (h : fs1.files = fs2.files)
    (tenderId c : String) :
    fileExistsAt fs1 tenderId c = fileExistsAt fs2 tenderId c := by
  unfold fileExistsAt
  rw [h]

theorem download_document_missing_field (netOk : String → Doc → Bool)
    (cfg : DownloaderCfg) (tenderId : String) (doc : Doc) (overwrite : Bool)
    (hbad : strTruthy (resolvedFileName doc) = false ∨
      strTruthy (resolvedUrl doc) = false) :
    ∀ fs, download_document netOk cfg tenderId doc overwrite fs
      = (none, fs, 0) := by
  intro fs
  unfold download_document
  rcases hbad with h1 | h2
  · rw [if_pos h1]
  · by_cases h1 : strTruthy (resolvedFileName doc) = false
    · rw [if_pos h1]
    · rw [if_neg h1]
      simp only [if_pos h2]

theorem download_document_present_skip (netOk : String → Doc → Bool)
    (cfg : DownloaderCfg) (tenderId : String) (doc : Doc) (fs : Fs)
    (h : fileExistsAt fs tenderId ((docTarget doc).getD "") = true) :
    (download_document netOk cfg tenderId doc false fs).2 = (fs, 0) := by
  unfold download_document
  by_cases h1 : strTruthy (resolvedFileName doc) = false
  · rw [if_pos h1]
  · rw [if_neg h1]
    by_cases h2 : strTruthy (resolvedUrl doc) = false
    · simp only [if_pos h2]
    · simp only [if_neg h2]
      have ht : docTarget doc
          = some (pathName ((resolvedFileName doc).getD "")) := by
        unfold docTarget
        rw [if_neg h1, if_neg h2]
      rw [ht] at h
      simp only [Option.getD_some] at h
      simp [h]

theorem docStep_present_skip (netOk : String → Doc → Bool)
    (cfg : DownloaderCfg) (tenderId : String) (doc : Doc) (fs : Fs)
    (h : fileExistsAt fs tenderId ((docTarget doc).getD "") = true)
    (paths : List (List String)) (n : Nat) :
    (docStep netOk cfg tenderId false (paths, fs, n) doc).2 = (fs, n) := by
  unfold docStep
  have hd := download_document_present_skip netOk cfg tenderId doc fs h
  have h1 : (download_document netOk cfg tenderId doc false fs).2.1 = fs := by
    rw [hd]
  have h2 : (download_document netOk cfg tenderId doc false fs).2.2 = 0 := by
    rw [hd]
  simp only [h1, h2, Nat.add_zero]

theorem download_documents_all_present (netOk : String → Doc → Bool)
    (cfg : DownloaderCfg) (tenderId : String) (documents : List Doc)
    (fs : Fs)
    (h : ∀ d ∈ documents,
      fileExistsAt fs tenderId ((docTarget d).getD "") = true) :
    ∀ (paths : List (List String)) (n : Nat),
      (documents.foldl (docStep netOk cfg tenderId false) (paths, fs, n)).2
        = (fs, n) := by
  induction documents with
  | nil => intro paths n; rfl
  | cons d ds ih =>
    intro paths n
    rw [List.foldl_cons]
    have hstep := docStep_present_skip netOk cfg tenderId d fs
      (h d (List.mem_cons_self d ds)) paths n
    have hrw : docStep netOk cfg tenderId false (paths, fs, n) d
        = ((docStep netOk cfg tenderId false (paths, fs, n) d).1, fs, n) := by
      rw [Prod.ext_iff]
      exact ⟨rfl, hstep⟩
    rw [hrw]
    exact ih (fun d2 hd2 => h d2 (List.mem_cons_of_mem d hd2)) _ n

theorem dft_cached (fetch : String → Except String (List Doc))
    (netOk : String → Doc → Bool) (cfg : DownloaderCfg) (tenderId : String)
    (overwrite save_metadata use_cached_metadata : Bool) (fs : Fs)
    (documents : List Doc)
    (hc : (if use_cached_metadata then fs.docsJson.lookup tenderId
      else none) = some documents) :
    download_for_tender fetch netOk cfg tenderId overwrite save_metadata
        use_cached_metadata fs
      = processDocuments netOk cfg tenderId overwrite save_metadata fs
          documents 0 := by
  simp only [download_for_tender, hc]

theorem dft_uncached_ok (fetch : String → Except String (List Doc))
    (netOk : String → Doc → Bool) (cfg : DownloaderCfg) (tenderId : String)
    (overwrite save_metadata use_cached_metadata : Bool) (fs : Fs)
    (documents : List Doc)
    (hnc : (if use_cached_metadata then fs.docsJson.lookup tenderId
      else none) = none)
    (hf : fetch tenderId = .ok documents) :
    download_for_tender fetch netOk cfg tenderId overwrite save_metadata
        use_cached_metadata fs
      = processDocuments netOk cfg tenderId overwrite save_metadata fs
          documents 1 := by
  simp only [download_for_tender, hnc, hf]

theorem dft_uncached_err (fetch : String → Except String (List Doc))
    (netOk : String → Doc → Bool) (cfg : DownloaderCfg) (tenderId : String)
    (overwrite save_metadata use_cached_metadata : Bool) (fs : Fs) (e : String)
    (hnc : (if use_cached_metadata then fs.docsJson.lookup tenderId
      else none) = none)
    (hf : fetch tenderId = .error e) :
    download_for_tender fetch netOk cfg tenderId overwrite save_metadata
        use_cached_metadata fs
      = { summary := { tender_id := tenderId, status := "error",
                       error := some e },
          fs := fs, metaFetches := 1, fileDownloads := 0 } := by
  simp only [download_for_tender, hnc, hf]

theorem pd_empty (netOk : String → Doc → Bool) (cfg : DownloaderCfg)
    (tenderId : String) (overwrite save_metadata : Bool) (fs : Fs) (mf : Nat) :
    processDocuments netOk cfg tenderId overwrite save_metadata fs [] mf
      = { summary := { tender_id := tenderId, status := "no_documents" },
          fs := writeNoAttachmentsMarker fs tenderId,
          metaFetches := mf, fileDownloads := 0 } := by
  simp only [processDocuments, List.isEmpty_nil, if_true]

theorem pd_nonempty (netOk : String → Doc → Bool) (cfg : DownloaderCfg)
    (tenderId : String) (overwrite : Bool) (fs : Fs) (mf : Nat)
    (documents : List Doc) (hne : documents.isEmpty = false) :
    processDocuments netOk cfg tenderId overwrite true fs documents mf
      = { summary := { tender_id := tenderId,
                       documents_found := documents.length,
                       documents_downloaded :=
                         (download_documents_for_tender netOk cfg tenderId
                           documents overwrite
                           (saveDocumentsJson fs tenderId documents)).1.length,
                       status := "completed" },
          fs := (download_documents_for_tender netOk cfg tenderId documents
                  overwrite (saveDocumentsJson fs tenderId documents)).2.1,
          metaFetches := mf,
          fileDownloads :=
            (download_documents_for_tender netOk cfg tenderId documents
              overwrite (saveDocumentsJson fs tenderId documents)).2.2 } := by
  simp only [processDocuments, hne, Bool.false_eq_true, if_false, if_true]

theorem pd_tender_id (netOk : String → Doc → Bool) (cfg : DownloaderCfg)
    (tenderId : String) (overwrite save_metadata : Bool) (fs : Fs)
    (documents : List Doc) (mf : Nat) :
    (processDocuments netOk cfg tenderId overwrite save_metadata fs documents
      mf).summary.tender_id = tenderId := by
  unfold processDocuments
  by_cases hd : documents.isEmpty = true
  · rw [if_pos hd]
  · rw [if_neg hd]

theorem download_for_tender_tender_id
    (fetch : String → Except String (List Doc)) (netOk : String → Doc → Bool)
    (cfg : DownloaderCfg) (tenderId : String)
    (overwrite save_metadata use_cached_metadata : Bool) (fs : Fs) :
    (download_for_tender fetch netOk cfg tenderId overwrite save_metadata
      use_cached_metadata fs).summary.tender_id = tenderId := by
  cases hc : (if use_cached_metadata then fs.docsJson.lookup tenderId
      else none) with
  | some documents =>
    rw [dft_cached fetch netOk cfg tenderId overwrite save_metadata
      use_cached_metadata fs documents hc]
    exact pd_tender_id netOk cfg tenderId overwrite save_metadata fs
      documents 0
  | none =>
    cases hf : fetch tenderId with
    | error e =>
      rw [dft_uncached_err fetch netOk cfg tenderId overwrite save_metadata
        use_cached_metadata fs e hc hf]
    | ok documents =>
      rw [dft_uncached_ok fetch netOk cfg tenderId overwrite save_metadata
        use_cached_metadata fs documents hc hf]
      exact pd_tender_id netOk cfg tenderId overwrite save_metadata fs
        documents 1

theorem download_for_tender_cached_run
    (fetch : String → Except String (List Doc)) (netOk : String → Doc → Bool)
    (cfg : DownloaderCfg) (tenderId : String) (documents : List Doc) (fs : Fs)
    (hcache : fs.docsJson.lookup tenderId = some documents)
    (hpresent : ∀ d ∈ documents,
      fileExistsAt fs tenderId ((docTarget d).getD "") = true) :
    (download_for_tender fetch netOk cfg tenderId false true
        true fs).metaFetches = 0 ∧
    (download_for_tender fetch netOk cfg tenderId false true
        true fs).fileDownloads = 0 ∧
    (download_for_tender fetch netOk cfg tenderId false true
        true fs).fs.files = fs.files ∧
    (download_for_tender fetch netOk cfg tenderId false true
        true fs).fs.docsJson.lookup tenderId = some documents := by
  have hc : (if true then fs.docsJson.lookup tenderId else none)
      = some documents := by simpa using hcache
  rw [dft_cached fetch netOk cfg tenderId false true true fs documents hc]
  by_cases hd : documents.isEmpty = true
  · have hnil : documents = [] := by
      cases documents with
      | nil => rfl
      | cons a l => simp [List.isEmpty] at hd
    subst hnil
    rw [pd_empty]
    refine ⟨rfl, rfl, writeNoAttachmentsMarker_files fs tenderId, ?_⟩
    rw [writeNoAttachmentsMarker_docsJson]
    exact hcache
  · have hne : documents.isEmpty = false := by
      cases h : documents.isEmpty
      · rfl
      · exact absurd h hd
    rw [pd_nonempty netOk cfg tenderId false fs 0 documents hne]
    have hpres1 : ∀ d ∈ documents,
        fileExistsAt (saveDocumentsJson fs tenderId documents) tenderId
          ((docTarget d).getD "") = true := by
      intro d hdm
      rw [fileExistsAt_congr _ fs
        (saveDocumentsJson_files fs tenderId documents)]
      exact hpresent d hdm
    have hfold := download_documents_all_present netOk cfg tenderId documents
      (saveDocumentsJson fs tenderId documents) hpres1 [] 0
    have h1 : (download_documents_for_tender netOk cfg tenderId documents
        false (saveDocumentsJson fs tenderId documents)).2.1
        = saveDocumentsJson fs tenderId documents := by
      unfold download_documents_for_tender
      rw [hfold]
    have h2 : (download_documents_for_tender netOk cfg tenderId documents
        false (saveDocumentsJson fs tenderId documents)).2.2 = 0 := by
      unfold download_documents_for_tender
      rw [hfold]
    refine ⟨rfl, h2, ?_, ?_⟩
    · show (download_documents_for_tender netOk cfg tenderId documents false
        (saveDocumentsJson fs tenderId documents)).2.1.files = fs.files
      rw [h1]
      exact saveDocumentsJson_files fs tenderId documents
    · show (download_documents_for_tender netOk cfg tenderId documents false
        (saveDocumentsJson fs tenderId
          documents)).2.1.docsJson.lookup tenderId = some documents
      rw [h1]
      exact saveDocumentsJson_lookup fs tenderId documents

theorem batch_foldl_map_ids (fetch : String → Except String (List Doc))
    (netOk : String → Doc → Bool) (cfg : DownloaderCfg)
    (overwrite use_cached_metadata : Bool) (ids : List String)
    (acc : BatchRun) :
    ((ids.foldl (batchStep fetch netOk cfg overwrite use_cached_metadata)
        acc).results.map (fun s => s.tender_id))
      = acc.results.map (fun s => s.tender_id)
        ++ ids.filter (fun t => !(t == "")) := by
  induction ids generalizing acc with
  | nil => simp
  | cons t ts ih =>
    rw [List.foldl_cons, ih]
    by_cases h : t = ""
    · subst h
      simp [batchStep]
    · have hb : (t == "") = false := by
        simpa using h
      simp only [batchStep, hb, Bool.false_eq_true, if_false, List.filter_cons,
        Bool.not_false, List.map_append, List.map_cons, List.map_nil,
        download_for_tender_tender_id]
      rw [List.append_assoc]
      rfl

theorem departureTimes_length (m last prev : ℚ) (gaps : List ℚ) :
    (departureTimes m last prev gaps).length = gaps.length := by
  induction gaps generalizing last prev with
  | nil => rfl
  | cons g gs ih => simp [departureTimes, ih]

theorem rateLimitStep_eq_max (m last now : ℚ) :
    rateLimitStep m last now = max now (last + m) := by
  unfold rateLimitStep
  split
  · rename_i h
    rw [max_eq_right (by linarith)]
    ring
  · rename_i h
    rw [max_eq_left (by linarith)]

theorem departureTimes_head_ge (m last prev : ℚ) (gaps : List ℚ) (y : ℚ)
    (hy : (departureTimes m last prev gaps).head? = some y) :
    last + m ≤ y := by
  cases gaps with
  | nil => simp [departureTimes] at hy
  | cons g gs =>
    simp only [departureTimes, List.head?_cons, Option.some.injEq] at hy
    rw [← hy, rateLimitStep_eq_max]
    exact le_max_right _ _

theorem departureTimes_chain (m last prev : ℚ) (gaps : List ℚ) :
    List.Chain' (fun a b => a + m ≤ b) (departureTimes m last prev gaps) := by
  induction gaps generalizing last prev with
  | nil => simp [departureTimes]
  | cons g gs ih =>
    simp only [departureTimes]
    refine List.chain'_cons'.mpr ⟨?_, ih _ _⟩
    intro y hy
    exact departureTimes_head_ge m _ _ gs y (Option.mem_def.mp hy)

theorem chain_add_le_getLast (m : ℚ) :
    ∀ (l : List ℚ), List.Chain' (fun a b => a + m ≤ b) l →
      ∀ d1 dN, l.head? = some d1 → l.getLast? = some dN →
        d1 + ((l.length : ℚ) - 1) * m ≤ dN := by
  intro l
  induction l with
  | nil =>
    intro _ d1 dN h1 _
    simp at h1
  | cons x xs ih =>
    intro hch d1 dN h1 hN
    simp only [List.head?_cons, Option.some.injEq] at h1
    subst h1
    cases xs with
    | nil =>
      simp only [List.getLast?_singleton, Option.some.injEq] at hN
      subst hN
      simp
    | cons y ys =>
      have hxy : x + m ≤ y := (List.chain'_cons'.mp hch).1 y (by simp)
      have hch2 := (List.chain'_cons'.mp hch).2
      have hN2 : (y :: ys).getLast? = some dN := by
        rw [← List.getLast?_cons_cons]
        exact hN
      have ihy := ih hch2 y dN (by simp) hN2
      have hlen : ((x :: y :: ys).length : ℚ) = ((y :: ys).length : ℚ) + 1 := by
        push_cast [List.length_cons]
        ring
      rw [hlen]
      have hshift : ((y :: ys).length : ℚ) + 1 - 1 = ((y :: ys).length : ℚ) := by
        ring
      rw [hshift]
      have hring : ((y :: ys).length : ℚ) * m
          = (((y :: ys).length : ℚ) - 1) * m + m := by ring
      linarith

/-! Claim theorems. -/

/-- C3: for a listing returning pages of sizes [50, 50, 30] under page size
50, the crawl loop of `fetch_tenders_for_province` issues exactly 3 page
requests, accumulates the 130 records of those pages, and stops because the
third page is shorter than the page size. -/
theorem crawl_short_page_termination {α : Type}
    (fetchPage : Nat → Except String (List α)) (l1 l2 l3 : List α)
    (h1 : fetchPage 1 = .ok l1) (h2 : fetchPage 2 = .ok l2)
    (h3 : fetchPage 3 = .ok l3) (hl1 : l1.length = 50) (hl2 : l2.length = 50)
    (hl3 : l3.length = 30) (fuel : Nat) (hfuel : 3 ≤ fuel) :
    fetch_tenders_for_province fetchPage
        { startPage := 1, endPage := none, pageSize := 50 } fuel
      = (l1 ++ l2 ++ l3, 3, .shortPage) ∧ (l1 ++ l2 ++ l3).length = 130 := by
  obtain ⟨k, rfl⟩ : ∃ k, fuel = k + 1 + 1 + 1 := ⟨fuel - 3, by omega⟩
  have hne1 : l1.isEmpty = false := by cases l1 <;> simp_all
  have hne2 : l2.isEmpty = false := by cases l2 <;> simp_all
  have hne3 : l3.isEmpty = false := by cases l3 <;> simp_all
  constructor
  · simp [fetch_tenders_for_province, fetchLoop, h1, h2, h3, hne1, hne2,
      hne3, hl1, hl2, hl3, endPageHit]
  · simp [hl1, hl2, hl3]

/-- C4: with an end-page ceiling of 2 and indefinitely full pages of 50
records, the crawl loop stops after requesting page 2 with exactly 100
records; the stop reason is the `logger.warning` truncation branch
(`endPageReached`), not the error branch. -/
theorem crawl_end_page_truncation {α : Type}
    (fetchPage : Nat → Except String (List α))
    (hfull : ∀ n, ∃ l, fetchPage n = .ok l ∧ l.length = 50)
    (fuel : Nat) (hfuel : 2 ≤ fuel) :
    (fetch_tenders_for_province fetchPage
        { startPage := 1, endPage := some 2, pageSize := 50 } fuel).1.length
        = 100 ∧
    (fetch_tenders_for_province fetchPage
        { startPage := 1, endPage := some 2, pageSize := 50 } fuel).2.1 = 2 ∧
    (fetch_tenders_for_province fetchPage
        { startPage := 1, endPage := some 2, pageSize := 50 } fuel).2.2
        = StopReason.endPageReached := by
  obtain ⟨k, rfl⟩ : ∃ k, fuel = k + 1 + 1 := ⟨fuel - 2, by omega⟩
  obtain ⟨l1, h1, hl1⟩ := hfull 1
  obtain ⟨l2, h2, hl2⟩ := hfull 2
  have hne1 : l1.isEmpty = false := by cases l1 <;> simp_all
  have hne2 : l2.isEmpty = false := by cases l2 <;> simp_all
  have hrun : fetch_tenders_for_province fetchPage
      { startPage := 1, endPage := some 2, pageSize := 50 } (k + 1 + 1)
      = (l1 ++ l2, 2, StopReason.endPageReached) := by
    simp [fetch_tenders_for_province, fetchLoop, h1, h2, hne1, hne2, hl1,
      hl2, endPageHit]
  rw [hrun]
  refine ⟨?_, rfl, rfl⟩
  simp [hl1, hl2]

/-- C5: whenever the crawl loop is about to request a page whose fetch
fails (either `except` clause of `fetch_tenders_for_province`), it stops at
that page and returns exactly the records accumulated from the earlier
successful pages; the loop is a total function, so no exception reaches
the caller — the failure is recorded as the `httpError` stop reason. -/
theorem crawl_stops_on_failure {α : Type}
    (fetchPage : Nat → Except String (List α)) (p : Pagination) (page : Nat)
    (e : String) (h : fetchPage page = .error e) (fuel : Nat) (acc : List α)
    (reqs : Nat) :
    fetchLoop fetchPage p (fuel + 1) page acc reqs
      = (acc, reqs + 1, .httpError) := by
  simp [fetchLoop, h]

/-- C9: through one client instance whose pacer starts at
`last_request_time = 0`, the departure times of consecutive synchronous
requests (each issued a nonnegative delay after the previous departure)
are spaced by at least `1 / rate_limit`, so N requests span at least
`(N - 1) / rate_limit` seconds from first to last departure. -/
theorem rate_limit_spacing (rate : ℚ) (hrate : 0 < rate) (start : ℚ)
    (gaps : List ℚ) (hg : ∀ g ∈ gaps, 0 ≤ g) (d1 dN : ℚ)
    (h1 : (departureTimes (minRequestInterval rate) 0 start gaps).head?
      = some d1)
    (hN : (departureTimes (minRequestInterval rate) 0 start gaps).getLast?
      = some dN) :
    ((gaps.length : ℚ) - 1) * minRequestInterval rate ≤ dN - d1 := by
  have hch := departureTimes_chain (minRequestInterval rate) 0 start gaps
  have hb := chain_add_le_getLast (minRequestInterval rate) _ hch d1 dN h1 hN
  rw [departureTimes_length] at hb
  linarith

/-- C1 (amended): a tender whose document-metadata fetch returns an empty
list gets a `no_attachments` marker and status `no_documents`; however a
second `download_for_tender` call with `use_cached_metadata = true`
performs a metadata network fetch again (`metaFetches = 1`): the marker is
never consulted and no `documents.json` was saved, so caching does not
short-circuit the metadata call. -/
theorem no_attachments_marker_then_refetch
    (fetch : String → Except String (List Doc)) (netOk : String → Doc → Bool)
    (cfg : DownloaderCfg) (tenderId : String) (fs : Fs)
    (hfetch : fetch tenderId = .ok [])
    (hnocache : fs.docsJson.lookup tenderId = none) :
    (download_for_tender fetch netOk cfg tenderId false true
        true fs).summary.status = "no_documents" ∧
    (download_for_tender fetch netOk cfg tenderId false true
        true fs).fs.markers.contains tenderId = true ∧
    (download_for_tender fetch netOk cfg tenderId false true
        true fs).metaFetches = 1 ∧
    (download_for_tender fetch netOk cfg tenderId false true true
        (download_for_tender fetch netOk cfg tenderId false true
          true fs).fs).metaFetches = 1 ∧
    (download_for_tender fetch netOk cfg tenderId false true true
        (download_for_tender fetch netOk cfg tenderId false true
          true fs).fs).summary.status = "no_documents" := by
  have hnc : (if true then fs.docsJson.lookup tenderId else none) = none := by
    simpa using hnocache
  have e1 : download_for_tender fetch netOk cfg tenderId false true true fs
      = processDocuments netOk cfg tenderId false true fs [] 1 :=
    dft_uncached_ok fetch netOk cfg tenderId false true true fs [] hnc hfetch
  rw [e1, pd_empty]
  have hnc2 : (if true then
      (writeNoAttachmentsMarker fs tenderId).docsJson.lookup tenderId
      else none) = none := by
    simp [writeNoAttachmentsMarker_docsJson, hnocache]
  have e2 : download_for_tender fetch netOk cfg tenderId false true true
      (writeNoAttachmentsMarker fs tenderId)
      = processDocuments netOk cfg tenderId false true
          (writeNoAttachmentsMarker fs tenderId) [] 1 :=
    dft_uncached_ok fetch netOk cfg tenderId false true true _ [] hnc2 hfetch
  refine ⟨rfl, writeNoAttachmentsMarker_contains fs tenderId, rfl, ?_, ?_⟩
  · show (download_for_tender fetch netOk cfg tenderId false true true
      (writeNoAttachmentsMarker fs tenderId)).metaFetches = 1
    rw [e2, pd_empty]
  · show (download_for_tender fetch netOk cfg tenderId false true true
      (writeNoAttachmentsMarker fs tenderId)).summary.status = "no_documents"
    rw [e2, pd_empty]

/-- C1 (counterexample to the claim as stated): with a fetch that returns
an empty document list, the first call writes the marker and returns
`no_documents`, but the second call with `use_cached_metadata = true`
still performs one metadata network fetch (`metaFetches = 1`), refuting
"performs no network call for metadata". -/
theorem no_attachments_recheck_counterexample :
    (download_for_tender (fun _ => Except.ok ([] : List Doc))
        (fun _ _ => true) { attachmentsSubdir := none } "T1" false true true
        { docsJson := [], markers := [], files := [] }).summary.status
        = "no_documents" ∧
    (download_for_tender (fun _ => Except.ok ([] : List Doc))
        (fun _ _ => true) { attachmentsSubdir := none } "T1" false true true
        { docsJson := [], markers := [], files := [] }).fs.markers = ["T1"] ∧
    (download_for_tender (fun _ => Except.ok ([] : List Doc))
        (fun _ _ => true) { attachmentsSubdir := none } "T1" false true true
        (download_for_tender (fun _ => Except.ok ([] : List Doc))
          (fun _ _ => true) { attachmentsSubdir := none } "T1" false true true
          { docsJson := [], markers := [], files := [] }).fs).metaFetches
        = 1 :=
  ⟨rfl, rfl, rfl⟩

/-- C1 (witness): the amended theorem applied at a concrete fetch, tender
id and empty file system. -/
theorem no_attachments_marker_then_refetch_witness :
    ((fun _ => Except.ok ([] : List Doc)) "T1"
        = (Except.ok [] : Except String (List Doc)) ∧
     ({ docsJson := [], markers := [], files := [] } :
       Fs).docsJson.lookup "T1" = none) ∧
    (download_for_tender (fun _ => Except.ok ([] : List Doc))
        (fun _ _ => true) { attachmentsSubdir := none } "T1" false true true
        { docsJson := [], markers := [], files := [] }).summary.status
        = "no_documents" ∧
    (download_for_tender (fun _ => Except.ok ([] : List Doc))
        (fun _ _ => true) { attachmentsSubdir := none } "T1" false true true
        { docsJson := [], markers := [], files := [] }).fs.markers.contains
        "T1" = true ∧
    (download_for_tender (fun _ => Except.ok ([] : List Doc))
        (fun _ _ => true) { attachmentsSubdir := none } "T1" false true true
        { docsJson := [], markers := [], files := [] }).metaFetches = 1 ∧
    (download_for_tender (fun _ => Except.ok ([] : List Doc))
        (fun _ _ => true) { attachmentsSubdir := none } "T1" false true true
        (download_for_tender (fun _ => Except.ok ([] : List Doc))
          (fun _ _ => true) { attachmentsSubdir := none } "T1" false true true
          { docsJson := [], markers := [], files := [] }).fs).metaFetches
        = 1 ∧
    (download_for_tender (fun _ => Except.ok ([] : List Doc))
        (fun _ _ => true) { attachmentsSubdir := none } "T1" false true true
        (download_for_tender (fun _ => Except.ok ([] : List Doc))
          (fun _ _ => true) { attachmentsSubdir := none } "T1" false true true
          { docsJson := [], markers := [], files := [] }).fs).summary.status
        = "no_documents" :=
  ⟨⟨rfl, rfl⟩,
   no_attachments_marker_then_refetch (fun _ => Except.ok ([] : List Doc))
     (fun _ _ => true) { attachmentsSubdir := none } "T1"
     { docsJson := [], markers := [], files := [] } rfl rfl⟩

/-- C2: for a tender with persisted document metadata and every attachment
file already present, two `download_for_tender` runs with
`overwrite = false` and `use_cached_metadata = true` perform at most one
(in fact zero) metadata network fetches in total, zero byte-download
network calls each, and leave the set of files on disk identical. -/
theorem idempotent_rerun (fetch : String → Except String (List Doc))
    (netOk : String → Doc → Bool) (cfg : DownloaderCfg) (tenderId : String)
    (documents : List Doc) (fs : Fs)
    (hcache : fs.docsJson.lookup tenderId = some documents)
    (hpresent : ∀ d ∈ documents,
      fileExistsAt fs tenderId ((docTarget d).getD "") = true) :
    (download_for_tender fetch netOk cfg tenderId false true
        true fs).metaFetches +
      (download_for_tender fetch netOk cfg tenderId false true true
        (download_for_tender fetch netOk cfg tenderId false true
          true fs).fs).metaFetches ≤ 1 ∧
    (download_for_tender fetch netOk cfg tenderId false true
        true fs).fileDownloads = 0 ∧
    (download_for_tender fetch netOk cfg tenderId false true true
        (download_for_tender fetch netOk cfg tenderId false true
          true fs).fs).fileDownloads = 0 ∧
    (download_for_tender fetch netOk cfg tenderId false true
        true fs).fs.files = fs.files ∧
    (download_for_tender fetch netOk cfg tenderId false true true
        (download_for_tender fetch netOk cfg tenderId false true
          true fs).fs).fs.files = fs.files := by
  obtain ⟨m1, f1, files1, look1⟩ := download_for_tender_cached_run fetch netOk
    cfg tenderId documents fs hcache hpresent
  have hpresent2 : ∀ d ∈ documents,
      fileExistsAt (download_for_tender fetch netOk cfg tenderId false true
        true fs).fs tenderId ((docTarget d).getD "") = true := by
    intro d hd
    rw [fileExistsAt_congr _ fs files1]
    exact hpresent d hd
  obtain ⟨m2, f2, files2, look2⟩ := download_for_tender_cached_run fetch netOk
    cfg tenderId documents _ look1 hpresent2
  refine ⟨?_, f1, f2, files1, ?_⟩
  · rw [m1, m2]
    omega
  · rw [files2, files1]

/-- C2 (witness): the theorem applied to a tender with one cached document
whose file is already on disk. -/
theorem idempotent_rerun_witness :
    (({ docsJson := [("T", [{ fileName := some "a.pdf",
                              url := some "u" }])],
        markers := [], files := [("T", "a.pdf")] } :
          Fs).docsJson.lookup "T"
      = some [{ fileName := some "a.pdf", url := some "u" }] ∧
     (∀ d ∈ [({ fileName := some "a.pdf", url := some "u" } : Doc)],
       fileExistsAt { docsJson := [("T", [{ fileName := some "a.pdf",
                                            url := some "u" }])],
                      markers := [], files := [("T", "a.pdf")] } "T"
         ((docTarget d).getD "") = true)) ∧
    (download_for_tender (fun _ => Except.ok [])
        (fun _ _ => true) { attachmentsSubdir := none } "T" false true true
        { docsJson := [("T", [{ fileName := some "a.pdf",
                                url := some "u" }])],
          markers := [], files := [("T", "a.pdf")] }).fileDownloads = 0 ∧
    (download_for_tender (fun _ => Except.ok [])
        (fun _ _ => true) { attachmentsSubdir := none } "T" false true true
        { docsJson := [("T", [{ fileName := some "a.pdf",
                                url := some "u" }])],
          markers := [], files := [("T", "a.pdf")] }).fs.files
      = ({ docsJson := [("T", [{ fileName := some "a.pdf",
                                 url := some "u" }])],
           markers := [], files := [("T", "a.pdf")] } : Fs).files :=
  ⟨⟨by decide, by decide⟩,
   ((idempotent_rerun (fun _ => Except.ok []) (fun _ _ => true)
      { attachmentsSubdir := none } "T"
      [{ fileName := some "a.pdf", url := some "u" }]
      { docsJson := [("T", [{ fileName := some "a.pdf", url := some "u" }])],
        markers := [], files := [("T", "a.pdf")] }
      (by decide) (by decide)).2.1),
   ((idempotent_rerun (fun _ => Except.ok []) (fun _ _ => true)
      { attachmentsSubdir := none } "T"
      [{ fileName := some "a.pdf", url := some "u" }]
      { docsJson := [("T", [{ fileName := some "a.pdf", url := some "u" }])],
        markers := [], files := [("T", "a.pdf")] }
      (by decide) (by decide)).2.2.2.1)⟩

/-- C10: `download_for_batch` silently skips falsy (empty) tender ids: the
outcomes correspond exactly, in input order, to the non-empty supplied
ids, so the outcome list can be shorter than the id list. -/
theorem batch_skips_falsy_ids (fetch : String → Except String (List Doc))
    (netOk : String → Doc → Bool) (cfg : DownloaderCfg) (ids : List String)
    (overwrite use_cached_metadata : Bool) (fs : Fs) :
    (download_for_batch fetch netOk cfg ids overwrite use_cached_metadata
        fs).results.map (fun s => s.tender_id)
      = ids.filter (fun t => !(t == "")) ∧
    (download_for_batch fetch netOk cfg ids overwrite use_cached_metadata
        fs).results.length ≤ ids.length := by
  have h := batch_foldl_map_ids fetch netOk cfg overwrite use_cached_metadata
    ids { results := [], fs := fs, metaFetches := 0, fileDownloads := 0 }
  have hmap : (download_for_batch fetch netOk cfg ids overwrite
      use_cached_metadata fs).results.map (fun s => s.tender_id)
      = ids.filter (fun t => !(t == "")) := by
    simpa [download_for_batch] using h
  refine ⟨hmap, ?_⟩
  have hlen := congrArg List.length hmap
  rw [List.length_map] at hlen
  rw [hlen]
  exact List.length_filter_le _ _

theorem dft_uncached_outcome (fetch : String → Except String (List Doc))
    (netOk : String → Doc → Bool) (cfg : DownloaderCfg) (t : String)
    (overwrite : Bool) (fs : Fs) :
    ((download_for_tender fetch netOk cfg t overwrite true
        false fs).summary.tender_id,
     (download_for_tender fetch netOk cfg t overwrite true
        false fs).summary.status,
     (download_for_tender fetch netOk cfg t overwrite true
        false fs).summary.error)
      = (t, (expectedOutcome (fetch t)).1, (expectedOutcome (fetch t)).2)
      := by
  cases hf : fetch t with
  | error e =>
    rw [dft_uncached_err fetch netOk cfg t overwrite true false fs e rfl hf]
    simp [expectedOutcome]
  | ok documents =>
    rw [dft_uncached_ok fetch netOk cfg t overwrite true false fs documents
      rfl hf]
    cases documents with
    | nil =>
      rw [pd_empty]
      simp [expectedOutcome]
    | cons d ds =>
      rw [pd_nonempty netOk cfg t overwrite fs 1 (d :: ds) (by simp)]
      simp [expectedOutcome]

theorem batch_uncached_outcomes_fold
    (fetch : String → Except String (List Doc)) (netOk : String → Doc → Bool)
    (cfg : DownloaderCfg) (overwrite : Bool) (ids : List String)
    (hne : ∀ t ∈ ids, (t == "") = false) (acc : BatchRun) :
    ((ids.foldl (batchStep fetch netOk cfg overwrite false) acc).results.map
        (fun s => (s.tender_id, s.status, s.error)))
      = acc.results.map (fun s => (s.tender_id, s.status, s.error))
        ++ ids.map (fun t => (t, (expectedOutcome (fetch t)).1,
            (expectedOutcome (fetch t)).2)) := by
  induction ids generalizing acc with
  | nil => simp
  | cons t ts ih =>
    have hbt : (t == "") = false := hne t (List.mem_cons_self t ts)
    simp only [List.foldl_cons, batchStep, hbt, Bool.false_eq_true, if_false]
    rw [ih (fun x hx => hne x (List.mem_cons_of_mem t hx))]
    simp only [List.map_append, List.map_cons, List.map_nil, List.map_cons]
    rw [dft_uncached_outcome fetch netOk cfg t overwrite acc.fs]
    simp [List.append_assoc]

/-- C6 (amended): for a batch of non-empty tender ids processed without
cached metadata, `download_for_batch` returns one outcome per supplied id
in input order and never raises (it is a total function): an id whose
fetch raises is reported with status `error` and the exception message
while the other ids still get their own outcomes (`no_documents` on an
empty list, `completed` otherwise) — in particular three ids where the
second raises give three outcomes in order with the second marked `error`
and the first and third `completed`.  Empty-string ids are skipped and
get no outcome (see the counterexample). -/
theorem batch_error_isolation (fetch : String → Except String (List Doc))
    (netOk : String → Doc → Bool) (cfg : DownloaderCfg) (ids : List String)
    (overwrite : Bool) (fs : Fs) (hne : ∀ t ∈ ids, t ≠ "") :
    ((download_for_batch fetch netOk cfg ids overwrite false fs).results.map
        (fun s => (s.tender_id, s.status, s.error)))
      = ids.map (fun t => (t, (expectedOutcome (fetch t)).1,
          (expectedOutcome (fetch t)).2)) := by
  have hne2 : ∀ t ∈ ids, (t == "") = false := by
    intro t ht
    simpa using hne t ht
  have h := batch_uncached_outcomes_fold fetch netOk cfg overwrite ids hne2
    { results := [], fs := fs, metaFetches := 0, fileDownloads := 0 }
  simpa [download_for_batch] using h

/-- C6 (counterexample to the claim as stated): a batch consisting of one
empty-string id yields an empty outcome list, not one outcome per
supplied id. -/
theorem batch_empty_id_no_outcome :
    (download_for_batch (fun _ => Except.ok ([] : List Doc))
        (fun _ _ => true) { attachmentsSubdir := none } [""] false true
        { docsJson := [], markers := [], files := [] }).results = [] ∧
    ([""] : List String).length = 1 :=
  ⟨rfl, rfl⟩

/-- C6 (witness): three concrete ids where the second's fetch raises;
outcomes are three, in order, `completed` / `error` / `completed`. -/
theorem batch_error_isolation_witness :
    (∀ t ∈ (["A", "B", "C"] : List String), t ≠ "") ∧
    ((download_for_batch
        (fun t => if t = "B" then Except.error "boom"
          else Except.ok [{ fileName := some "a.pdf", url := some "u" }])
        (fun _ _ => true) { attachmentsSubdir := none } ["A", "B", "C"]
        false false
        { docsJson := [], markers := [], files := [] }).results.map
        (fun s => (s.tender_id, s.status, s.error)))
      = [("A", "completed", none), ("B", "error", some "boom"),
         ("C", "completed", none)] :=
  ⟨by decide,
   (batch_error_isolation
      (fun t => if t = "B" then Except.error "boom"
        else Except.ok [{ fileName := some "a.pdf", url := some "u" }])
      (fun _ _ => true) { attachmentsSubdir := none } ["A", "B", "C"] false
      { docsJson := [], markers := [], files := [] }
      (by decide)).trans (by decide)⟩

theorem download_document_files_after (netOk : String → Doc → Bool)
    (cfg : DownloaderCfg) (tenderId : String) (doc : Doc) (overwrite : Bool)
    (fs : Fs) :
    (download_document netOk cfg tenderId doc overwrite fs).2.1.files
        = fs.files ∨
    ((download_document netOk cfg tenderId doc overwrite fs).2.1.files
        = (tenderId, pathName ((resolvedFileName doc).getD "")) :: fs.files ∧
     pathName ((resolvedFileName doc).getD "") ≠ "" ∧
     pathName ((resolvedFileName doc).getD "") ≠ ".." ∧
     (download_document netOk cfg tenderId doc overwrite fs).1
        = some (attachPath cfg tenderId
            ++ [pathName ((resolvedFileName doc).getD "")])) := by
  simp only [download_document]
  by_cases h1 : strTruthy (resolvedFileName doc) = false
  · rw [if_pos h1]
    left
    rfl
  · rw [if_neg h1]
    by_cases h2 : strTruthy (resolvedUrl doc) = false
    · rw [if_pos h2]
      left
      rfl
    · rw [if_neg h2]
      by_cases h3 : (fileExistsAt fs tenderId
          (pathName ((resolvedFileName doc).getD "")) && !overwrite) = true
      · rw [if_pos h3]
        left
        rfl
      · rw [if_neg h3]
        by_cases h4 : netOk tenderId doc = true
        · rw [if_pos h4]
          simp only [writeAttachment]
          by_cases h5 : (decide (pathName ((resolvedFileName doc).getD "")
              = "") || decide (pathName ((resolvedFileName doc).getD "")
              = "..")) = true
          · rw [if_pos h5]
            left
            rfl
          · rw [if_neg h5]
            have h5m : ¬pathName ((resolvedFileName doc).getD "") = ""
                ∧ ¬pathName ((resolvedFileName doc).getD "") = ".." := by
              simpa [not_or] using h5
            by_cases h6 : (tenderId,
                pathName ((resolvedFileName doc).getD "")) ∈ fs.files
            · left
              simp [h6]
            · right
              exact ⟨by simp [h6], h5m.1, h5m.2, by simp [h5m.1]⟩
        · rw [if_neg h4]
          left
          rfl

/-- C7: every file `download_document` adds to the file system sits
directly inside the tender's attachment directory under the final path
component of the document's display filename: the component contains no
path separator, is not empty and is not `".."`, and the returned path is
the attachment directory extended by exactly that one component — so a
written path never escapes the directory. -/
theorem filename_sanitization (netOk : String → Doc → Bool)
    (cfg : DownloaderCfg) (tenderId : String) (doc : Doc) (overwrite : Bool)
    (fs : Fs) :
    ∀ f ∈ (download_document netOk cfg tenderId doc overwrite fs).2.1.files,
      f ∈ fs.files ∨
      (f = (tenderId, pathName ((resolvedFileName doc).getD "")) ∧
       hasSlash (pathName ((resolvedFileName doc).getD "")) = false ∧
       pathName ((resolvedFileName doc).getD "") ≠ "" ∧
       pathName ((resolvedFileName doc).getD "") ≠ ".." ∧
       (download_document netOk cfg tenderId doc overwrite fs).1
         = some (attachPath cfg tenderId
             ++ [pathName ((resolvedFileName doc).getD "")])) := by
  intro f hf
  rcases download_document_files_after netOk cfg tenderId doc overwrite fs
    with h | ⟨hfiles, hne, hnd, hpath⟩
  · left
    rw [h] at hf
    exact hf
  · rw [hfiles] at hf
    rcases List.mem_cons.mp hf with rfl | hmem
    · right
      exact ⟨rfl, pathName_no_slash _, hne, hnd, hpath⟩
    · left
      exact hmem

/-- C7 (witness): the theorem applied to the document whose filename is
`"../../etc/evil.txt"`: the file written is exactly
`("T1", "evil.txt")` inside the attachment directory. -/
theorem filename_sanitization_witness :
    (("T1", "evil.txt") ∈ (download_document (fun _ _ => true) { attachmentsSubdir := none } "T1" { fileName := some "../../etc/evil.txt", url := some "u" } false { docsJson := [], markers := [], files := [] }).2.1.files) ∧
    (("T1", "evil.txt") ∈ ({ docsJson := [], markers := [], files := [] } : Fs).files ∨
     (("T1", "evil.txt") = ("T1", pathName ((resolvedFileName { fileName := some "../../etc/evil.txt", url := some "u" }).getD "")) ∧
      hasSlash (pathName ((resolvedFileName { fileName := some "../../etc/evil.txt", url := some "u" }).getD "")) = false ∧
      pathName ((resolvedFileName { fileName := some "../../etc/evil.txt", url := some "u" }).getD "") ≠ "" ∧
      pathName ((resolvedFileName { fileName := some "../../etc/evil.txt", url := some "u" }).getD "") ≠ ".." ∧
      (download_document (fun _ _ => true) { attachmentsSubdir := none } "T1" { fileName := some "../../etc/evil.txt", url := some "u" } false { docsJson := [], markers := [], files := [] }).1
        = some (attachPath { attachmentsSubdir := none } "T1" ++ [pathName ((resolvedFileName { fileName := some "../../etc/evil.txt", url := some "u" }).getD "")]))) :=
  ⟨by decide,
   filename_sanitization (fun _ _ => true) { attachmentsSubdir := none } "T1" { fileName := some "../../etc/evil.txt", url := some "u" } false { docsJson := [], markers := [], files := [] } ("T1", "evil.txt") (by decide)⟩

/-- C8: a document entry whose display filename (`fileName` or `name`) or
whose locator (`url`, `downloadUrl` or `fileUrl`) does not resolve makes
`download_document` return `None` with no file written and no network
call, and `download_documents_for_tender` on a list containing such an
entry behaves exactly as on the list without it: the remaining documents
are still processed. -/
theorem missing_field_skip (netOk : String → Doc → Bool)
    (cfg : DownloaderCfg) (tenderId : String) (doc : Doc) (overwrite : Bool)
    (fs : Fs)
    (hbad : strTruthy (resolvedFileName doc) = false ∨
      strTruthy (resolvedUrl doc) = false) :
    download_document netOk cfg tenderId doc overwrite fs = (none, fs, 0) ∧
    ∀ pre post,
      download_documents_for_tender netOk cfg tenderId (pre ++ doc :: post)
          overwrite fs
        = download_documents_for_tender netOk cfg tenderId (pre ++ post)
            overwrite fs := by
  refine ⟨download_document_missing_field netOk cfg tenderId doc overwrite
    hbad fs, ?_⟩
  intro pre post
  unfold download_documents_for_tender
  rw [List.foldl_append, List.foldl_append, List.foldl_cons]
  have hstep : ∀ A, docStep netOk cfg tenderId overwrite A doc = A := by
    intro A
    simp only [docStep,
      download_document_missing_field netOk cfg tenderId doc overwrite hbad]
    simp
  rw [hstep]

/-- C8 (witness): a document with a locator but no filename is skipped and
the surrounding list downloads as if it were absent. -/
theorem missing_field_skip_witness :
    (strTruthy (resolvedFileName ({ downloadUrl := some "u" } : Doc)) = false
      ∨ strTruthy (resolvedUrl ({ downloadUrl := some "u" } : Doc))
        = false) ∧
    download_document (fun _ _ => true) { attachmentsSubdir := none } "T"
        { downloadUrl := some "u" } false
        { docsJson := [], markers := [], files := [] }
      = (none, { docsJson := [], markers := [], files := [] }, 0) ∧
    download_documents_for_tender (fun _ _ => true)
        { attachmentsSubdir := none } "T"
        ([{ fileName := some "a.pdf", url := some "u" }]
          ++ { downloadUrl := some "u" }
            :: [{ fileName := some "b.pdf", url := some "u" }]) false
        { docsJson := [], markers := [], files := [] }
      = download_documents_for_tender (fun _ _ => true)
          { attachmentsSubdir := none } "T"
          ([{ fileName := some "a.pdf", url := some "u" }]
            ++ [{ fileName := some "b.pdf", url := some "u" }]) false
          { docsJson := [], markers := [], files := [] } :=
  ⟨Or.inl rfl,
   (missing_field_skip (fun _ _ => true) { attachmentsSubdir := none } "T"
      { downloadUrl := some "u" } false
      { docsJson := [], markers := [], files := [] } (Or.inl rfl)).1,
   (missing_field_skip (fun _ _ => true) { attachmentsSubdir := none } "T"
      { downloadUrl := some "u" } false
      { docsJson := [], markers := [], files := [] } (Or.inl rfl)).2
     [{ fileName := some "a.pdf", url := some "u" }]
     [{ fileName := some "b.pdf", url := some "u" }]⟩

/-- C3 (witness): a concrete listing with pages of sizes 50, 50, 30. -/
theorem crawl_short_page_termination_witness :
    (3 : Nat) ≤ 3 ∧
    (fetch_tenders_for_province
        (fun p => if p = 3 then Except.ok (List.replicate 30 (0 : Nat))
          else Except.ok (List.replicate 50 (0 : Nat)))
        { startPage := 1, endPage := none, pageSize := 50 } 3
      = (List.replicate 50 (0 : Nat) ++ List.replicate 50 (0 : Nat)
          ++ List.replicate 30 (0 : Nat), 3, .shortPage) ∧
     (List.replicate 50 (0 : Nat) ++ List.replicate 50 (0 : Nat)
        ++ List.replicate 30 (0 : Nat)).length = 130) :=
  ⟨by norm_num,
   crawl_short_page_termination _ _ _ _ rfl rfl rfl (by simp) (by simp)
     (by simp) 3 (by norm_num)⟩

/-- C4 (witness): indefinitely full pages with an end-page ceiling of 2. -/
theorem crawl_end_page_truncation_witness :
    (2 : Nat) ≤ 2 ∧
    (fetch_tenders_for_province
        (fun _ => Except.ok (List.replicate 50 (0 : Nat)))
        { startPage := 1, endPage := some 2, pageSize := 50 } 2).1.length
        = 100 ∧
    (fetch_tenders_for_province
        (fun _ => Except.ok (List.replicate 50 (0 : Nat)))
        { startPage := 1, endPage := some 2, pageSize := 50 } 2).2.1 = 2 ∧
    (fetch_tenders_for_province
        (fun _ => Except.ok (List.replicate 50 (0 : Nat)))
        { startPage := 1, endPage := some 2, pageSize := 50 } 2).2.2
        = StopReason.endPageReached := by
  refine ⟨by norm_num, ?_⟩
  exact crawl_end_page_truncation _
    (fun n => ⟨List.replicate 50 (0 : Nat), rfl, by simp⟩) 2 (by norm_num)

/-- C5 (witness): a crawl whose third page request fails returns the 100
records accumulated from the first two pages. -/
theorem crawl_stops_on_failure_witness :
    (fun p => if p = 3 then (Except.error "boom" : Except String (List Nat))
      else Except.ok (List.replicate 50 (0 : Nat))) 3
      = Except.error "boom" ∧
    fetchLoop
        (fun p => if p = 3
          then (Except.error "boom" : Except String (List Nat))
          else Except.ok (List.replicate 50 (0 : Nat)))
        { startPage := 1, endPage := none, pageSize := 50 } 1 3
        (List.replicate 100 (0 : Nat)) 2
      = (List.replicate 100 (0 : Nat), 3, .httpError) :=
  ⟨rfl,
   crawl_stops_on_failure _
     { startPage := 1, endPage := none, pageSize := 50 } 3 "boom" rfl 0
     (List.replicate 100 (0 : Nat)) 2⟩

/-- C9 (witness): a rate of 5 requests per second and three back-to-back
requests: departures at 1/5, 2/5 and 3/5 span 2/5 ≥ (3 - 1) / 5. -/
theorem rate_limit_spacing_witness :
    ((0 : ℚ) < 5 ∧ (∀ g ∈ ([0, 0, 0] : List ℚ), 0 ≤ g) ∧
     (departureTimes (minRequestInterval 5) 0 0 [0, 0, 0]).head?
       = some (1 / 5) ∧
     (departureTimes (minRequestInterval 5) 0 0 [0, 0, 0]).getLast?
       = some (3 / 5)) ∧
    ((([0, 0, 0] : List ℚ).length : ℚ) - 1) * minRequestInterval 5
      ≤ 3 / 5 - 1 / 5 :=
  ⟨⟨by norm_num, by intro g hg; fin_cases hg <;> norm_num,
    by norm_num [departureTimes, rateLimitStep, minRequestInterval],
    by norm_num [departureTimes, rateLimitStep, minRequestInterval]⟩,
   rate_limit_spacing 5 (by norm_num) 0 [0, 0, 0]
     (by intro g hg; fin_cases hg <;> norm_num) (1 / 5) (3 / 5)
     (by norm_num [departureTimes, rateLimitStep, minRequestInterval])
     (by norm_num [departureTimes, rateLimitStep, minRequestInterval])⟩

end TendersDownload
